import Mathlib

/-!
# Washi annotation engine — shallow embedding

This file embeds the `Washi` commenting engine (class `Washi` in the core
package) in Lean 4 and proves properties of its operations.

Modelling conventions:
* JS `Map` objects become insertion-ordered association lists
  (`List (String × α)`); `Map.set` replaces in place or appends, `Map.delete`
  filters, `Map.values()` is the list of second components.
* Coordinates (`x`, `y`) are rationals (`Rat`): the engine only compares them
  against `0` and `100` and stores them, so rationals capture every behaviour
  the claims exercise.
* Thrown errors are values of `WashiErr`: `WashiErr.thrown msg` is an
  engine-constructed `new Error(msg)` with the source's literal message, and
  `WashiErr.adapter e` is an adapter rejection propagated unchanged to the
  caller (no engine `Error` constructed around it).
* Adapter calls are opaque asynchronous operations; each operation takes the
  outcome of its adapter call as an explicit `Except String _` parameter.
  `crypto.randomUUID()` and `Date.now()` become explicit `newId` / `now`
  parameters.
* `mount` suspends twice (the content-stabilization wait and the adapter's
  `load`).  It is split at those suspension points into `mountStart`,
  `mountResume1` and `mountResume2`, so that an `unmount` interleaved at a
  suspension point can be expressed; `mount` composes the three for the
  uninterrupted run.
* DOM effects are projected onto the state fields they determine: the overlay
  node (`overlay`), its click-capture (`overlayCapture`), pin nodes (`pins`,
  carrying label/color/active/resolved), and the dialog (`dialog`).
* Event emission is recorded in an append-only log `events`; the dispatch of
  one emission to its subscribed handlers is modelled by `dispatchEmit` over
  an `EmitWorld` of consumer effects.
-/

/-- A persisted annotation (interface `Comment`). -/
structure Comment where
  id : String
  x : Rat
  y : Rat
  text : String
  color : Option String := none
  resolved : Option Bool := none
  createdAt : Nat
deriving DecidableEq, Repr

/-- Caller-facing input shape for creation (`Comment` minus `id`/`createdAt`). -/
structure NewComment where
  x : Rat
  y : Rat
  text : String
  color : Option String := none
  resolved : Option Bool := none
deriving DecidableEq, Repr

/-- `Partial<Comment>`: every field optional, absent fields left unchanged. -/
structure CommentUpdates where
  id : Option String := none
  x : Option Rat := none
  y : Option Rat := none
  text : Option String := none
  color : Option String := none
  resolved : Option Bool := none
  createdAt : Option Nat := none
deriving DecidableEq, Repr

/-- Mount configuration. -/
structure MountOptions where
  readOnly : Option Bool := none
  disableBuiltinDialog : Option Bool := none
deriving DecidableEq, Repr

/-- An engine error: either an `Error` constructed by the engine with the given
message, or an adapter rejection propagated as-is. -/
inductive WashiErr where
  | thrown (msg : String)
  | adapter (e : String)
deriving DecidableEq, Repr

/-- `{...comment, ...updates}`: fields present in `updates` override. -/
def applyUpdates (c : Comment) (u : CommentUpdates) : Comment :=
  { id := u.id.getD c.id
    x := u.x.getD c.x
    y := u.y.getD c.y
    text := u.text.getD c.text
    color := match u.color with | some v => some v | none => c.color
    resolved := match u.resolved with | some v => some v | none => c.resolved
    createdAt := u.createdAt.getD c.createdAt }

/-! ## JS `Map` as an insertion-ordered association list -/

/-- `Map.get`. -/
def mapGet (m : List (String × α)) (k : String) : Option α :=
  match m with
  | [] => none
  | (k1, v) :: rest => if k1 = k then some v else mapGet rest k

/-- `Map.has`. -/
def mapHas (m : List (String × α)) (k : String) : Bool :=
  (mapGet m k).isSome

/-- `Map.set`: replaces in place if the key exists, appends otherwise. -/
def mapSet (m : List (String × α)) (k : String) (v : α) : List (String × α) :=
  match m with
  | [] => [(k, v)]
  | (k1, v1) :: rest => if k1 = k then (k, v) :: rest else (k1, v1) :: mapSet rest k v

/-- `Map.delete`. -/
def mapDelete (m : List (String × α)) (k : String) : List (String × α) :=
  match m with
  | [] => []
  | (k1, v1) :: rest => if k1 = k then mapDelete rest k else (k1, v1) :: mapDelete rest k

/-- Update the value at a key in place (models mutating a retrieved node);
no-op when the key is absent. -/
def mapUpdate (m : List (String × α)) (k : String) (f : α → α) : List (String × α) :=
  m.map (fun p => if p.1 = k then (p.1, f p.2) else p)

/-- `Map.values()` in insertion order. -/
def mapValues (m : List (String × α)) : List α :=
  m.map (fun p => p.2)

/-! ## Engine state -/

/-- The visual pin node for one comment: the attributes the renderer writes. -/
structure PinNode where
  commentId : String
  label : String
  color : String
  active : Bool
  resolved : Bool
deriving DecidableEq, Repr

/-- Payload of an emitted event. -/
inductive EventPayload where
  | pinPlaced (x y : Rat)
  | created (c : Comment)
  | updated (id : String) (updates : CommentUpdates)
  | deleted (id : String)
  | clicked (c : Comment)
  | modeChanged (mode : String) (previousMode : String)
  | errorEv (type : String) (message : String) (error : String)
deriving DecidableEq, Repr

/-- The fields of a `Washi` instance.  `events` is the log of emit calls the
instance has made, in order. -/
structure WashiState where
  comments : List (String × Comment) := []
  mode : String := "view"
  pins : List (String × PinNode) := []
  eventHandlers : List (String × List Nat) := []
  iframe : Bool := false
  overlay : Bool := false
  overlayCapture : Bool := false
  dialog : Option String := none
  options : Option MountOptions := none
  contentReady : Bool := false
  activePinId : Option String := none
  mountGeneration : Nat := 0
  events : List (String × EventPayload) := []
deriving DecidableEq, Repr

/-- The constructor: empty maps, `view` mode, generation 0. -/
def washiInit : WashiState := {}

/-- Default color palette for pins. -/
def WASHI_COLORS : List String :=
  ["#667eea", "#f59e0b", "#10b981", "#ef4444",
   "#8b5cf6", "#06b6d4", "#f97316", "#ec4899"]

/-- JS `a || b` on an optional string (`""` is falsy). -/
def orDefault (o : Option String) (d : String) : String :=
  match o with
  | some s => if s = "" then d else s
  | none => d

/-- `this.options?.readOnly` as a truthiness test. -/
def optReadOnly (o : Option MountOptions) : Bool :=
  match o with
  | some opts => opts.readOnly.getD false
  | none => false

/-- Record one `this.emit(event, data)` call. -/
def emitEv (s : WashiState) (event : String) (payload : EventPayload) : WashiState :=
  { s with events := s.events ++ [(event, payload)] }

/-! ## Rendering helpers (`getCommentIndex`, `renderPin`, …) -/

/-- Stable insertion into a list sorted by `createdAt` (ascending). -/
def insertByCreatedAt (c : Comment) : List Comment → List Comment
  | [] => [c]
  | d :: rest =>
    if c.createdAt ≤ d.createdAt then c :: d :: rest else d :: insertByCreatedAt c rest

/-- Stable sort by ascending `createdAt`, the comparator
`(a, b) => a.createdAt - b.createdAt` of `getCommentIndex`. -/
def sortByCreatedAt : List Comment → List Comment
  | [] => []
  | c :: rest => insertByCreatedAt c (sortByCreatedAt rest)

/-- `getCommentIndex`: zero-based rank by `createdAt`, `-1` if absent. -/
def getCommentIndex (s : WashiState) (commentId : String) : Int :=
  match (sortByCreatedAt (mapValues s.comments)).findIdx? (fun c => c.id == commentId) with
  | some i => (i : Int)
  | none => -1

/-- The pin node `renderPin` builds for a comment in a given state. -/
def mkPin (s : WashiState) (c : Comment) : PinNode :=
  let index := getCommentIndex s c.id
  let isResolved := c.resolved.getD false
  { commentId := c.id
    label := if isResolved then "✓" else toString (index + 1)
    color := orDefault c.color (WASHI_COLORS.headD "")
    active := s.activePinId = some c.id
    resolved := isResolved }

/-- `renderPin`: returns unchanged when not mounted, otherwise creates the pin
node and stores it under the comment's id. -/
def renderPin (s : WashiState) (c : Comment) : WashiState :=
  if s.iframe then { s with pins := mapSet s.pins c.id (mkPin s c) } else s

/-- `setActivePin`: clears the active flag on the previous pin, records the new
active id, and flags the new pin when present. -/
def setActivePin (s : WashiState) (commentId : Option String) : WashiState :=
  let pins1 :=
    match s.activePinId with
    | some prev => mapUpdate s.pins prev (fun p => { p with active := false })
    | none => s.pins
  let s1 := { s with pins := pins1, activePinId := commentId }
  match commentId with
  | some id => { s1 with pins := mapUpdate s1.pins id (fun p => { p with active := true }) }
  | none => s1

/-- `hidePinDialog`: removes the dialog node and clears the active pin. -/
def hidePinDialog (s : WashiState) : WashiState :=
  setActivePin { s with dialog := none } none

/-- `showPinDialog`: no-op unless the comment exists and the overlay is
attached; hides any open dialog, activates the pin, and (when the pin node
exists) attaches the dialog for that comment. -/
def showPinDialog (s : WashiState) (commentId : String) : WashiState :=
  match mapGet s.comments commentId with
  | none => s
  | some _ =>
    if s.overlay then
      let s1 := setActivePin (hidePinDialog s) (some commentId)
      match mapGet s1.pins commentId with
      | none => s1
      | some _ => { s1 with dialog := some commentId }
    else s

/-- `refreshPinPositions`: removes every pin node and re-renders the pins of
comments still in the cache, in pin-map order. -/
def refreshPinPositions (s : WashiState) : WashiState :=
  if s.iframe ∧ s.overlay then
    let commentsToRerender :=
      (s.pins.map (fun p => p.1)).filterMap (fun id => mapGet s.comments id)
    commentsToRerender.foldl renderPin { s with pins := [] }
  else s

/-- The comment `addComment` builds: `{...input, id: crypto.randomUUID(),
createdAt: Date.now()}`, with the generated values as parameters. -/
def mkNewComment (input : NewComment) (newId : String) (now : Nat) : Comment :=
  { id := newId, x := input.x, y := input.y, text := input.text,
    color := input.color, resolved := input.resolved, createdAt := now }

/-! ## Validation -/

/-- `validateCoordinates`: throws unless both coordinates lie in `[0, 100]`. -/
def validateCoordinates (x y : Rat) : Except WashiErr Unit :=
  if x < 0 ∨ x > 100 ∨ y < 0 ∨ y > 100 then
    Except.error (WashiErr.thrown "Coordinates must be between 0-100")
  else Except.ok ()

/-! ## Mount lifecycle -/

/-- The environment a suspended `mount` continuation captured. -/
structure MountCont where
  generation : Nat
deriving DecidableEq, Repr

/-- The synchronous prologue of `mount`, up to the first suspension point
(the content-stabilization wait): already-mounted and detached-target checks,
generation capture, overlay creation, listener setup, and the synchronous
prefix of `waitForContentReady` (which sets `contentReady`).
`iframeAttached` models `iframe.parentElement` being non-null. -/
def mountStart (s : WashiState) (options : Option MountOptions) (iframeAttached : Bool) :
    Except WashiErr (WashiState × MountCont) :=
  if s.iframe then Except.error (WashiErr.thrown "iframe already mounted. Unmount first.")
  else if !iframeAttached then Except.error (WashiErr.thrown "No iframe attacted to the DOM.")
  else
    let generation := s.mountGeneration + 1
    let s1 := { s with mountGeneration := generation, iframe := true, options := options }
    let s2 := { s1 with overlay := true, overlayCapture := s1.mode == "annotate",
                        contentReady := true }
    Except.ok (s2, { generation := generation })

/-- The continuation of `mount` after the content-stabilization wait: bails out
(`false`) when the captured generation no longer matches; otherwise updates the
overlay dimensions (no modelled state) and proceeds (`true`) to the adapter's
`load` call. -/
def mountResume1 (s : WashiState) (cont : MountCont) : WashiState × Bool :=
  if s.mountGeneration ≠ cont.generation then (s, false) else (s, true)

/-- The continuation of `mount` after the adapter's `load` settles: on success,
bails out when the captured generation no longer matches, otherwise inserts
each loaded comment and renders its pin; on rejection, emits an `error` event
of type `load` (the `catch` block). -/
def mountResume2 (s : WashiState) (cont : MountCont)
    (loadResult : Except String (List Comment)) : WashiState :=
  match loadResult with
  | Except.ok comments =>
    if s.mountGeneration ≠ cont.generation then s
    else comments.foldl
      (fun acc c => renderPin { acc with comments := mapSet acc.comments c.id c } c) s
  | Except.error e =>
    emitEv s "error" (EventPayload.errorEv "load" "Failed to load comments" e)

/-- A whole `mount` call with no interleaved `unmount`. -/
def mount (s : WashiState) (options : Option MountOptions) (iframeAttached : Bool)
    (loadResult : Except String (List Comment)) : Except WashiErr WashiState :=
  match mountStart s options iframeAttached with
  | Except.error e => Except.error e
  | Except.ok (s1, cont) =>
    let r1 := mountResume1 s1 cont
    if r1.2 then Except.ok (mountResume2 r1.1 cont loadResult) else Except.ok r1.1

/-- `unmount`: bumps the generation counter, removes listeners, hides the
dialog, removes the overlay, and clears pins, comments and mount state.
`mode`, `options`, `eventHandlers` and the event log are left untouched. -/
def unmount (s : WashiState) : WashiState :=
  let s1 := hidePinDialog { s with mountGeneration := s.mountGeneration + 1 }
  { s1 with overlay := false, overlayCapture := false, pins := [], comments := [],
            iframe := false, dialog := none, contentReady := false, activePinId := none }

/-! ## Comment repository -/

/-- `addComment`: not-mounted check, missing-text check, coordinate validation;
then builds the comment with the generated `newId` and `now`, optimistically
inserts it and renders its pin, and settles the adapter's `save`: on success
emits `comment:created` and returns the comment; on rejection rolls back the
cache entry and the pin and throws a wrapping error. -/
def addComment (s : WashiState) (input : NewComment) (newId : String) (now : Nat)
    (saveResult : Except String Unit) : Except WashiErr Comment × WashiState :=
  if !s.iframe then
    (Except.error (WashiErr.thrown "Washi is not mounted. Call mount() first."), s)
  else if input.text = "" then (Except.error (WashiErr.thrown "Invalid comment"), s)
  else
    match validateCoordinates input.x input.y with
    | Except.error e => (Except.error e, s)
    | Except.ok _ =>
      let comment : Comment :=
        { id := newId, x := input.x, y := input.y, text := input.text,
          color := input.color, resolved := input.resolved, createdAt := now }
      let s1 := renderPin { s with comments := mapSet s.comments comment.id comment } comment
      match saveResult with
      | Except.ok _ =>
        (Except.ok comment, emitEv s1 "comment:created" (EventPayload.created comment))
      | Except.error e =>
        (Except.error (WashiErr.thrown ("Washi: Failed to save comment: " ++ e)),
         { s1 with comments := mapDelete s1.comments comment.id,
                   pins := mapDelete s1.pins comment.id })

/-- `updateComment`: not-found check; when `x` or `y` is present, validates the
merged coordinates; awaits the adapter's `update` — a rejection propagates to
the caller unchanged with the cache untouched; on success merges the cache
entry, re-renders the pin when position/color/resolved changed, and emits
`comment:updated` with `{id, updates}`. -/
def updateComment (s : WashiState) (id : String) (updates : CommentUpdates)
    (updateResult : Except String Unit) : Except WashiErr Unit × WashiState :=
  match mapGet s.comments id with
  | none => (Except.error (WashiErr.thrown "Washi: Comment does not exist"), s)
  | some comment =>
    match
      (if updates.x.isSome ∨ updates.y.isSome then
        validateCoordinates (updates.x.getD comment.x) (updates.y.getD comment.y)
      else Except.ok ()) with
    | Except.error e => (Except.error e, s)
    | Except.ok _ =>
      let updated := applyUpdates comment updates
      match updateResult with
      | Except.error e => (Except.error (WashiErr.adapter e), s)
      | Except.ok _ =>
        let s1 := { s with comments := mapSet s.comments id updated }
        let s2 :=
          if updates.x.isSome ∨ updates.y.isSome ∨ updates.color.isSome ∨
              updates.resolved.isSome then
            renderPin { s1 with pins := mapDelete s1.pins id } updated
          else s1
        (Except.ok (), emitEv s2 "comment:updated" (EventPayload.updated id updates))

/-- `deleteComment`: not-mounted and not-found checks; awaits the adapter's
`delete` — a rejection is wrapped and re-thrown with the cache untouched; on
success removes the cache entry, hides the dialog when it showed this comment,
removes the pin, re-renders remaining pins, and emits `comment:deleted`. -/
def deleteComment (s : WashiState) (id : String)
    (deleteResult : Except String Unit) : Except WashiErr Unit × WashiState :=
  if !s.iframe then
    (Except.error (WashiErr.thrown "Washi is not mounted. Call mount() first."), s)
  else if !mapHas s.comments id then
    (Except.error (WashiErr.thrown "Washi: Comment not found"), s)
  else
    match deleteResult with
    | Except.error e =>
      (Except.error (WashiErr.thrown ("Washi: Failed to delete comment: " ++ e)), s)
    | Except.ok _ =>
      let s1 := { s with comments := mapDelete s.comments id }
      let s2 := if s1.activePinId = some id then hidePinDialog s1 else s1
      let s3 := { s2 with pins := mapDelete s2.pins id }
      let s4 := refreshPinPositions s3
      (Except.ok (), emitEv s4 "comment:deleted" (EventPayload.deleted id))

/-- `getComments`: an array of shallow copies of the cached comments. -/
def getComments (s : WashiState) : List Comment :=
  mapValues s.comments

/-- `setMode`: rejects any value other than `view`/`annotate`; rejects
`annotate` under a read-only mount; otherwise records the mode, emits
`mode:changed` with the new and previous modes, and toggles overlay
click-capture. -/
def setMode (s : WashiState) (mode : String) : Except WashiErr Unit × WashiState :=
  if mode ≠ "view" ∧ mode ≠ "annotate" then
    (Except.error (WashiErr.thrown "Invalid mode"), s)
  else if optReadOnly s.options ∧ mode = "annotate" then
    (Except.error (WashiErr.thrown "Cannot set annotate mode in readOnly mode"), s)
  else
    let previousMode := s.mode
    let s1 := emitEv { s with mode := mode } "mode:changed"
      (EventPayload.modeChanged mode previousMode)
    let s2 := if s1.overlay then { s1 with overlayCapture := mode == "annotate" } else s1
    (Except.ok (), s2)

/-! ## Event bus -/

/-- `on(event, handler)`: creates the per-event `Set` when absent and adds the
handler; adding an already-registered handler is a no-op.  Handlers are
identified by `Nat` tokens. -/
def onSubscribe (s : WashiState) (event : String) (handler : Nat) : WashiState :=
  let hs := (mapGet s.eventHandlers event).getD []
  { s with eventHandlers :=
      mapSet s.eventHandlers event (if handler ∈ hs then hs else hs ++ [handler]) }

/-- The unsubscribe closure returned by `on`: deletes the handler from the
event's `Set` when present. -/
def offHandler (s : WashiState) (event : String) (handler : Nat) : WashiState :=
  { s with eventHandlers := mapUpdate s.eventHandlers event (fun hs => hs.erase handler) }

/-- Registered handlers for an event, in registration order. -/
def handlersFor (s : WashiState) (event : String) : List Nat :=
  (mapGet s.eventHandlers event).getD []

/-- Consumer-side effects of one `emit` call: the invocation log and the
errors logged by the internal `catch`. -/
structure EmitWorld where
  invoked : List Nat := []
  loggedErrors : List (String × Nat) := []
deriving DecidableEq, Repr

/-- One handler invocation inside `emit`'s loop: the handler runs (is added to
the invocation log); when it throws (`beh h = true`) the `catch` logs the error
and the loop continues. -/
def runHandlerStep (beh : Nat → Bool) (event : String) (w : EmitWorld) (h : Nat) : EmitWorld :=
  let w1 := { w with invoked := w.invoked ++ [h] }
  if beh h then { w1 with loggedErrors := w1.loggedErrors ++ [(event, h)] } else w1

/-- Dispatch of one `emit(event, data)` call: looks up the event's handler
set; absent means return; otherwise invokes each handler in order inside
`try`/`catch` — `beh h = true` means handler `h` throws, which is caught and
logged.  The function always returns an `EmitWorld`: no handler exception
escapes into the caller. -/
def dispatchEmit (beh : Nat → Bool) (s : WashiState) (event : String)
    (w : EmitWorld) : EmitWorld :=
  match mapGet s.eventHandlers event with
  | none => w
  | some hs => hs.foldl (runHandlerStep beh event) w

/-! ## Claim-level predicates -/

/-- Both coordinates of a comment lie in the closed interval `[0, 100]`. -/
def coordsInRange (c : Comment) : Prop :=
  0 ≤ c.x ∧ c.x ≤ 100 ∧ 0 ≤ c.y ∧ c.y ≤ 100

instance : DecidablePred coordsInRange := fun c => by
  unfold coordsInRange; infer_instance

/-- Every comment in the cache has coordinates in `[0, 100]`. -/
def cacheCoordsInRange (s : WashiState) : Prop :=
  ∀ p ∈ s.comments, coordsInRange p.2

instance : DecidablePred cacheCoordsInRange := fun s => by
  unfold cacheCoordsInRange; infer_instance

/-- An error value constructed by the engine (`new Error(...)`), as opposed to
an adapter rejection propagated verbatim. -/
def isEngineThrown : WashiErr → Bool
  | WashiErr.thrown _ => true
  | WashiErr.adapter _ => false

/-- The observable surface `unmount` is claimed to reset: cache, pins,
overlay, dialog, mounted flag, active pin, readiness. -/
structure Observable where
  comments : List (String × Comment)
  pins : List (String × PinNode)
  overlay : Bool
  dialog : Option String
  iframe : Bool
  activePinId : Option String
  contentReady : Bool
deriving DecidableEq, Repr

/-- Project the observable surface out of a state. -/
def observable (s : WashiState) : Observable :=
  { comments := s.comments, pins := s.pins, overlay := s.overlay, dialog := s.dialog,
    iframe := s.iframe, activePinId := s.activePinId, contentReady := s.contentReady }

/-! ## Reachability

`ReachableGood` closes the initial state under every public operation and
under the pieces of a (possibly interleaved) `mount`, with one hypothesis on
the environment: every comment the adapter's `load` returns is itself
coordinate-valid.  The engine performs no validation on loaded comments, so
without that hypothesis the cache invariant is refutable (see the C1
counterexample). -/
inductive ReachableGood : WashiState → Prop where
  | init : ReachableGood washiInit
  | startMount {s s1 : WashiState} {opts : Option MountOptions} {att : Bool} {cont : MountCont} :
      ReachableGood s → mountStart s opts att = Except.ok (s1, cont) → ReachableGood s1
  | resume1 {s : WashiState} (cont : MountCont) :
      ReachableGood s → ReachableGood (mountResume1 s cont).1
  | resume2 {s : WashiState} (cont : MountCont) {loaded : List Comment} :
      ReachableGood s → (∀ c ∈ loaded, coordsInRange c) →
      ReachableGood (mountResume2 s cont (Except.ok loaded))
  | resume2Err {s : WashiState} (cont : MountCont) (e : String) :
      ReachableGood s → ReachableGood (mountResume2 s cont (Except.error e))
  | unmountStep {s : WashiState} : ReachableGood s → ReachableGood (unmount s)
  | add {s : WashiState} (input : NewComment) (newId : String) (now : Nat)
      (r : Except String Unit) :
      ReachableGood s → ReachableGood (addComment s input newId now r).2
  | update {s : WashiState} (id : String) (u : CommentUpdates) (r : Except String Unit) :
      ReachableGood s → ReachableGood (updateComment s id u r).2
  | delete {s : WashiState} (id : String) (r : Except String Unit) :
      ReachableGood s → ReachableGood (deleteComment s id r).2
  | mode {s : WashiState} (m : String) : ReachableGood s → ReachableGood (setMode s m).2
  | subscribe {s : WashiState} (event : String) (h : Nat) :
      ReachableGood s → ReachableGood (onSubscribe s event h)
  | unsubscribe {s : WashiState} (event : String) (h : Nat) :
      ReachableGood s → ReachableGood (offHandler s event h)
  | activePin {s : WashiState} (o : Option String) :
      ReachableGood s → ReachableGood (setActivePin s o)
  | showDialog {s : WashiState} (id : String) :
      ReachableGood s → ReachableGood (showPinDialog s id)
  | hideDialog {s : WashiState} : ReachableGood s → ReachableGood (hidePinDialog s)
  | refresh {s : WashiState} : ReachableGood s → ReachableGood (refreshPinPositions s)

/-! ## Concrete states for witnesses and counterexamples -/

/-- The state right after `mountStart washiInit none true` (a fresh engine,
mounted, before its first suspension point resolves). -/
def mountedS1 : WashiState :=
  { comments := [], mode := "view", pins := [], eventHandlers := [], iframe := true,
    overlay := true, overlayCapture := false, dialog := none, options := none,
    contentReady := true, activePinId := none, mountGeneration := 1, events := [] }

/-- A comment whose coordinates violate the `[0, 100]` invariant, as an
adapter's `load` may return it. -/
def badComment : Comment :=
  { id := "bad", x := 150, y := 50, text := "out of range", createdAt := 1 }

/-- The state an uninterrupted `mount` on a fresh engine reaches when the
adapter's `load` returns `[badComment]`. -/
def loadedBadState : WashiState :=
  (mount washiInit none true (Except.ok [badComment])).toOption.getD washiInit

/-- An in-range comment used by witnesses. -/
def cexComment : Comment :=
  { id := "c1", x := 10, y := 10, text := "t", createdAt := 1 }

/-- A mounted engine whose cache holds exactly `cexComment`. -/
def cexState : WashiState :=
  { mountedS1 with comments := [("c1", cexComment)],
                   pins := [("c1", mkPin mountedS1 cexComment)] }

/-- A fresh engine mounted with `{readOnly: true}`. -/
def readOnlyState : WashiState :=
  { mountedS1 with options := some { readOnly := some true } }

/-! ## Association-list lemmas -/

theorem mapSet_of_get_none {m : List (String × α)} {k : String} (v : α)
    (h : mapGet m k = none) : mapSet m k v = m ++ [(k, v)] := by
  induction m with
  | nil => rfl
  | cons p rest ih =>
    obtain ⟨k1, v1⟩ := p
    unfold mapGet at h
    unfold mapSet
    by_cases hk : k1 = k
    · simp [hk] at h
    · simp only [if_neg hk] at h ⊢
      rw [ih h]
      simp

theorem mapDelete_of_get_none {m : List (String × α)} {k : String}
    (h : mapGet m k = none) : mapDelete m k = m := by
  induction m with
  | nil => rfl
  | cons p rest ih =>
    obtain ⟨k1, v1⟩ := p
    unfold mapGet at h
    unfold mapDelete
    by_cases hk : k1 = k
    · simp [hk] at h
    · simp only [if_neg hk] at h ⊢
      rw [ih h]

theorem mapDelete_mapSet_of_get_none {m : List (String × α)} {k : String} (v : α)
    (h : mapGet m k = none) : mapDelete (mapSet m k v) k = m := by
  induction m with
  | nil => simp [mapSet, mapDelete]
  | cons p rest ih =>
    obtain ⟨k1, v1⟩ := p
    unfold mapGet at h
    by_cases hk : k1 = k
    · simp [hk] at h
    · simp only [if_neg hk] at h
      unfold mapSet mapDelete
      simp only [if_neg hk]
      rw [ih h]

theorem mapGet_mapSet_self {m : List (String × α)} {k : String} (v : α) :
    mapGet (mapSet m k v) k = some v := by
  induction m with
  | nil => simp [mapSet, mapGet]
  | cons p rest ih =>
    obtain ⟨k1, v1⟩ := p
    unfold mapSet
    by_cases hk : k1 = k
    · simp [hk, mapGet]
    · simp only [if_neg hk]
      unfold mapGet
      simp only [if_neg hk]
      exact ih

theorem length_mapSet_of_get_none {m : List (String × α)} {k : String} (v : α)
    (h : mapGet m k = none) : (mapSet m k v).length = m.length + 1 := by
  rw [mapSet_of_get_none v h]
  simp

theorem mem_of_mem_mapSet {m : List (String × α)} {k : String} {v : α} {p : String × α}
    (h : p ∈ mapSet m k v) : p ∈ m ∨ p = (k, v) := by
  induction m with
  | nil => simpa [mapSet] using h
  | cons q rest ih =>
    obtain ⟨k1, v1⟩ := q
    unfold mapSet at h
    by_cases hk : k1 = k
    · simp only [if_pos hk, List.mem_cons] at h
      rcases h with h | h
      · right; exact h
      · left; exact List.mem_cons_of_mem _ h
    · simp only [if_neg hk, List.mem_cons] at h
      rcases h with h | h
      · left; exact h ▸ List.mem_cons_self _ _
      · rcases ih h with h1 | h1
        · left; exact List.mem_cons_of_mem _ h1
        · right; exact h1

theorem mem_of_mem_mapDelete {m : List (String × α)} {k : String} {p : String × α}
    (h : p ∈ mapDelete m k) : p ∈ m := by
  induction m with
  | nil => simp [mapDelete] at h
  | cons q rest ih =>
    obtain ⟨k1, v1⟩ := q
    unfold mapDelete at h
    by_cases hk : k1 = k
    · simp only [if_pos hk] at h
      exact List.mem_cons_of_mem _ (ih h)
    · simp only [if_neg hk, List.mem_cons] at h
      rcases h with h | h
      · exact h ▸ List.mem_cons_self _ _
      · exact List.mem_cons_of_mem _ (ih h)

theorem mem_of_mapGet_eq_some {m : List (String × α)} {k : String} {v : α}
    (h : mapGet m k = some v) : (k, v) ∈ m := by
  induction m with
  | nil => simp [mapGet] at h
  | cons q rest ih =>
    obtain ⟨k1, v1⟩ := q
    unfold mapGet at h
    by_cases hk : k1 = k
    · simp only [if_pos hk, Option.some.injEq] at h
      subst hk; subst h
      exact List.mem_cons_self _ _
    · simp only [if_neg hk] at h
      exact List.mem_cons_of_mem _ (ih h)

theorem mapValues_append (a b : List (String × α)) :
    mapValues (a ++ b) = mapValues a ++ mapValues b := by
  simp [mapValues]

/-! ## Field-preservation lemmas for rendering helpers -/

theorem renderPin_comments (s : WashiState) (c : Comment) :
    (renderPin s c).comments = s.comments := by
  unfold renderPin; split <;> rfl

theorem renderPin_events (s : WashiState) (c : Comment) :
    (renderPin s c).events = s.events := by
  unfold renderPin; split <;> rfl

theorem renderPin_iframe (s : WashiState) (c : Comment) :
    (renderPin s c).iframe = s.iframe := by
  unfold renderPin; split <;> rfl

theorem renderPin_of_iframe {s : WashiState} (c : Comment) (h : s.iframe = true) :
    renderPin s c = { s with pins := mapSet s.pins c.id (mkPin s c) } := by
  unfold renderPin
  rw [h]
  simp

theorem foldl_renderPin_comments (cs : List Comment) (s : WashiState) :
    (cs.foldl renderPin s).comments = s.comments := by
  induction cs generalizing s with
  | nil => rfl
  | cons c rest ih => rw [List.foldl_cons, ih, renderPin_comments]

theorem setActivePin_comments (s : WashiState) (o : Option String) :
    (setActivePin s o).comments = s.comments := by
  unfold setActivePin
  cases o <;> cases s.activePinId <;> rfl

theorem setActivePin_events (s : WashiState) (o : Option String) :
    (setActivePin s o).events = s.events := by
  unfold setActivePin
  cases o <;> cases s.activePinId <;> rfl

theorem hidePinDialog_comments (s : WashiState) :
    (hidePinDialog s).comments = s.comments := by
  unfold hidePinDialog
  rw [setActivePin_comments]

theorem hidePinDialog_events (s : WashiState) :
    (hidePinDialog s).events = s.events := by
  unfold hidePinDialog
  rw [setActivePin_events]

theorem showPinDialog_comments (s : WashiState) (id : String) :
    (showPinDialog s id).comments = s.comments := by
  unfold showPinDialog
  cases h : mapGet s.comments id with
  | none => rfl
  | some c =>
    by_cases ho : s.overlay
    · simp only [if_pos ho]
      split
      · rw [setActivePin_comments, hidePinDialog_comments]
      · show (setActivePin (hidePinDialog s) (some id)).comments = s.comments
        rw [setActivePin_comments, hidePinDialog_comments]
    · simp [ho]

theorem refreshPinPositions_comments (s : WashiState) :
    (refreshPinPositions s).comments = s.comments := by
  unfold refreshPinPositions
  split
  · rw [foldl_renderPin_comments]
  · rfl

theorem refreshPinPositions_events (s : WashiState) :
    (refreshPinPositions s).events = s.events := by
  unfold refreshPinPositions
  split
  · generalize ((s.pins.map (fun p => p.1)).filterMap (fun id => mapGet s.comments id)) = cs
    generalize hs : ({ s with pins := [] } : WashiState) = s0
    have : s0.events = s.events := by rw [← hs]
    rw [← this]
    clear hs this
    induction cs generalizing s0 with
    | nil => rfl
    | cons c rest ih => rw [List.foldl_cons, ih, renderPin_events]
  · rfl

/-! ## Validation lemmas -/

theorem validateCoordinates_ok {x y : Rat} (hx0 : 0 ≤ x) (hx1 : x ≤ 100)
    (hy0 : 0 ≤ y) (hy1 : y ≤ 100) : validateCoordinates x y = Except.ok () := by
  unfold validateCoordinates
  rw [if_neg]
  push_neg
  exact ⟨hx0, hx1, hy0, hy1⟩

theorem validateCoordinates_error {x y : Rat}
    (h : x < 0 ∨ x > 100 ∨ y < 0 ∨ y > 100) :
    validateCoordinates x y =
      Except.error (WashiErr.thrown "Coordinates must be between 0-100") := by
  unfold validateCoordinates
  rw [if_pos h]

theorem coords_of_validate_ok {x y : Rat} {u : Unit}
    (h : validateCoordinates x y = Except.ok u) :
    0 ≤ x ∧ x ≤ 100 ∧ 0 ≤ y ∧ y ≤ 100 := by
  unfold validateCoordinates at h
  split at h
  · exact absurd h (by simp)
  · next hcond =>
    push_neg at hcond
    exact hcond

/-! ## `mountStart` inversion -/

theorem mountStart_ok {s s1 : WashiState} {opts : Option MountOptions} {att : Bool}
    {cont : MountCont} (h : mountStart s opts att = Except.ok (s1, cont)) :
    s1 = { s with mountGeneration := s.mountGeneration + 1, iframe := true,
                  options := opts, overlay := true,
                  overlayCapture := s.mode == "annotate", contentReady := true }
    ∧ cont.generation = s.mountGeneration + 1 := by
  unfold mountStart at h
  split at h
  · exact absurd h (by simp)
  · split at h
    · exact absurd h (by simp)
    · simp only [Except.ok.injEq, Prod.mk.injEq] at h
      obtain ⟨h1, h2⟩ := h
      exact ⟨h1.symm, by rw [← h2]⟩

/-! ## Emit-dispatch fold -/

theorem foldl_runHandlerStep_invoked (beh : Nat → Bool) (event : String)
    (hs : List Nat) (w : EmitWorld) :
    (hs.foldl (runHandlerStep beh event) w).invoked = w.invoked ++ hs := by
  induction hs generalizing w with
  | nil => simp
  | cons h rest ih =>
    rw [List.foldl_cons, ih]
    have hstep : (runHandlerStep beh event w h).invoked = w.invoked ++ [h] := by
      unfold runHandlerStep
      split <;> rfl
    rw [hstep, List.append_assoc]
    rfl

/-! ## Claim theorems -/

/-- C9: `unmount()` is idempotent: it is a total function (the source method
contains no throw), calling it on an unmounted engine leaves the same
observable surface as one call — empty cache, no pins, no overlay, no dialog —
and it emits nothing. -/
theorem washi_C9 (s : WashiState) :
    observable (unmount (unmount s)) = observable (unmount s)
    ∧ (unmount s).comments = [] ∧ (unmount s).pins = []
    ∧ (unmount s).overlay = false ∧ (unmount s).dialog = none
    ∧ (unmount s).events = s.events :=
  ⟨rfl, rfl, rfl, rfl, rfl, rfl⟩

/-- C8: `emit` invokes each currently-registered handler exactly once, in
registration order, appending exactly the handler list to the invocation log
whatever the handlers' throw behaviour `beh` is; a throwing handler is caught
(the invocation log is the same for any two behaviours, so neither the
remaining handlers nor the triggering operation are affected); and `on`
registers handlers in call order (appending a new handler, keeping the list
unchanged when the handler is already registered). -/
theorem washi_C8 :
    (∀ (beh : Nat → Bool) (s : WashiState) (event : String) (w : EmitWorld),
      (dispatchEmit beh s event w).invoked = w.invoked ++ handlersFor s event)
    ∧ (∀ (beh beh' : Nat → Bool) (s : WashiState) (event : String) (w : EmitWorld),
      (dispatchEmit beh s event w).invoked = (dispatchEmit beh' s event w).invoked)
    ∧ (∀ (s : WashiState) (event : String) (h : Nat),
      handlersFor (onSubscribe s event h) event =
        if h ∈ handlersFor s event then handlersFor s event
        else handlersFor s event ++ [h]) := by
  have hmain : ∀ (beh : Nat → Bool) (s : WashiState) (event : String) (w : EmitWorld),
      (dispatchEmit beh s event w).invoked = w.invoked ++ handlersFor s event := by
    intro beh s event w
    unfold dispatchEmit handlersFor
    cases hget : mapGet s.eventHandlers event with
    | none => simp
    | some hs => simp [foldl_runHandlerStep_invoked]
  refine ⟨hmain, fun beh beh' s event w => ?_, fun s event h => ?_⟩
  · rw [hmain beh, hmain beh']
  · unfold onSubscribe handlersFor
    rw [mapGet_mapSet_self]
    rfl

/-- C7: `setMode` rejects any argument other than `view`/`annotate` with the
validation error and leaves the state (hence the mode) unchanged; it rejects
`annotate` under a read-only mount with the read-only error, again leaving the
state unchanged (so a `view` mode stays `view`); and a successful transition
returns, records the new mode, and emits `mode:changed` exactly once with the
new and previous modes. -/
theorem washi_C7 :
    (∀ (s : WashiState) (m : String), m ≠ "view" → m ≠ "annotate" →
      setMode s m = (Except.error (WashiErr.thrown "Invalid mode"), s))
    ∧ (∀ s : WashiState, optReadOnly s.options = true →
      setMode s "annotate" =
        (Except.error (WashiErr.thrown "Cannot set annotate mode in readOnly mode"), s))
    ∧ (∀ (s : WashiState) (m : String), (m = "view" ∨ m = "annotate") →
      (optReadOnly s.options = true → m ≠ "annotate") →
      (setMode s m).1 = Except.ok () ∧ (setMode s m).2.mode = m ∧
      (setMode s m).2.events =
        s.events ++ [("mode:changed", EventPayload.modeChanged m s.mode)]) := by
  refine ⟨fun s m h1 h2 => ?_, fun s h => ?_, fun s m hvalid hro => ?_⟩
  · unfold setMode
    rw [if_pos ⟨h1, h2⟩]
  · unfold setMode
    rw [if_neg (by simp), if_pos ⟨h, rfl⟩]
  · have hcond1 : ¬(m ≠ "view" ∧ m ≠ "annotate") := by
      rcases hvalid with h | h <;> simp [h]
    have hcond2 : ¬(optReadOnly s.options ∧ m = "annotate") := by
      rintro ⟨hr, hm⟩
      exact hro hr hm
    unfold setMode
    rw [if_neg hcond1, if_neg hcond2]
    refine ⟨rfl, ?_, ?_⟩
    · show (if _ then _ else _ : WashiState).mode = m
      split <;> rfl
    · show (if _ then _ else _ : WashiState).events = _
      split <;> rfl

/-- C7 witness: scenario 5 — `setMode('annotate')` on an engine mounted with
`{readOnly: true}` rejects with the read-only error and the mode stays
`view`. -/
theorem washi_C7_witness :
    setMode readOnlyState "annotate" =
      (Except.error (WashiErr.thrown "Cannot set annotate mode in readOnly mode"),
       readOnlyState) :=
  washi_C7.2.1 readOnlyState rfl

/-- C10: the stored mount options and the mode survive `unmount`: unmounting
changes neither; after unmounting a read-only engine, `setMode('annotate')`
still fails with the read-only error and leaves the state unchanged; the next
successful transition (`setMode('view')`) still reports the pre-unmount mode
as `previousMode`; and only a subsequent `mount` replaces the stored
options. -/
theorem washi_C10 :
    (∀ s : WashiState, (unmount s).options = s.options ∧ (unmount s).mode = s.mode)
    ∧ (∀ s : WashiState, optReadOnly s.options = true →
      setMode (unmount s) "annotate" =
        (Except.error (WashiErr.thrown "Cannot set annotate mode in readOnly mode"),
         unmount s))
    ∧ (∀ s : WashiState, (setMode (unmount s) "view").2.events =
        s.events ++ [("mode:changed", EventPayload.modeChanged "view" s.mode)])
    ∧ (∀ (s s1 : WashiState) (opts : Option MountOptions) (att : Bool) (cont : MountCont),
      mountStart s opts att = Except.ok (s1, cont) → s1.options = opts) := by
  refine ⟨fun s => ⟨rfl, rfl⟩, fun s h => ?_, fun s => ?_, fun s s1 opts att cont h => ?_⟩
  · unfold setMode
    rw [if_neg (by simp), if_pos ⟨h, rfl⟩]
  · unfold setMode
    rw [if_neg (by simp), if_neg (by simp)]
    show (if _ then _ else _ : WashiState).events = _
    split <;> rfl
  · rw [(mountStart_ok h).1]

/-- C10 witness: after unmounting the read-only engine, `setMode('annotate')`
still rejects with the read-only error. -/
theorem washi_C10_witness :
    setMode (unmount readOnlyState) "annotate" =
      (Except.error (WashiErr.thrown "Cannot set annotate mode in readOnly mode"),
       unmount readOnlyState) :=
  washi_C10.2.1 readOnlyState rfl

/-- C2: on a mounted engine with valid input, when the adapter's `save`
rejects, `addComment` rejects with an engine error wrapping the adapter's
error, and the state — in particular the comment cache and the pin map, hence
`getComments()` and the pin for the new id — is exactly what it was before the
call.  The freshness hypotheses on `newId` model `crypto.randomUUID()`
returning an id not already in use. -/
theorem washi_C2 (s : WashiState) (input : NewComment) (newId : String) (now : Nat)
    (e : String) (hm : s.iframe = true) (ht : input.text ≠ "")
    (hx0 : 0 ≤ input.x) (hx1 : input.x ≤ 100) (hy0 : 0 ≤ input.y) (hy1 : input.y ≤ 100)
    (hfc : mapGet s.comments newId = none) (hfp : mapGet s.pins newId = none) :
    addComment s input newId now (Except.error e) =
      (Except.error (WashiErr.thrown ("Washi: Failed to save comment: " ++ e)), s)
    ∧ getComments (addComment s input newId now (Except.error e)).2 = getComments s
    ∧ mapGet (addComment s input newId now (Except.error e)).2.pins newId = none := by
  have key : addComment s input newId now (Except.error e) =
      (Except.error (WashiErr.thrown ("Washi: Failed to save comment: " ++ e)), s) := by
    unfold addComment
    rw [hm]
    simp only [Bool.not_true, Bool.false_eq_true, if_false, if_neg ht,
      validateCoordinates_ok hx0 hx1 hy0 hy1]
    simp [renderPin, mapDelete_mapSet_of_get_none, hfc, hfp]
    rw [← hm]
  exact ⟨key, by rw [key], by rw [key]; exact hfp⟩

/-- C2 witness: scenario 3 — a rejecting `save` for
`addComment({x:10, y:10, text:"x"})` on a freshly mounted engine rejects with
the wrapping error and leaves the state untouched. -/
theorem washi_C2_witness :
    addComment mountedS1 { x := 10, y := 10, text := "x" } "id-1" 5 (Except.error "boom") =
      (Except.error (WashiErr.thrown ("Washi: Failed to save comment: " ++ "boom")),
       mountedS1) :=
  (washi_C2 mountedS1 { x := 10, y := 10, text := "x" } "id-1" 5 "boom" rfl
    (by decide) (by decide) (by decide) (by decide) (by decide) rfl rfl).1

/-- C5: on a mounted engine with valid input and a resolving `save`,
`addComment` returns the comment built from the input with the generated id
and timestamp (so `x`, `y`, `text` equal the input's); the id is non-empty and
distinct from the id of every cached comment (the freshness hypotheses model
`crypto.randomUUID()`); `createdAt` is the `Date.now()` sample, positive and
not earlier than the call's start; afterwards `getComments()` is the previous
list extended by exactly that comment (size up by one) and `comment:created`
was emitted exactly once with it. -/
theorem washi_C5 (s : WashiState) (input : NewComment) (newId : String)
    (now callStart : Nat) (hm : s.iframe = true) (ht : input.text ≠ "")
    (hx0 : 0 ≤ input.x) (hx1 : input.x ≤ 100) (hy0 : 0 ≤ input.y) (hy1 : input.y ≤ 100)
    (hid : newId ≠ "") (hfc : mapGet s.comments newId = none)
    (hids : ∀ c ∈ getComments s, c.id ≠ newId)
    (hstart : callStart ≤ now) (hpos : 0 < now) :
    (addComment s input newId now (Except.ok ())).1 =
      Except.ok (mkNewComment input newId now)
    ∧ (mkNewComment input newId now).id ≠ ""
    ∧ (∀ c ∈ getComments s, c.id ≠ (mkNewComment input newId now).id)
    ∧ callStart ≤ (mkNewComment input newId now).createdAt
    ∧ 0 < (mkNewComment input newId now).createdAt
    ∧ getComments (addComment s input newId now (Except.ok ())).2 =
        getComments s ++ [mkNewComment input newId now]
    ∧ (getComments (addComment s input newId now (Except.ok ())).2).length =
        (getComments s).length + 1
    ∧ (addComment s input newId now (Except.ok ())).2.events =
        s.events ++ [("comment:created", EventPayload.created (mkNewComment input newId now))] := by
  have hred : addComment s input newId now (Except.ok ()) =
      (Except.ok (mkNewComment input newId now),
       emitEv (renderPin { s with comments := mapSet s.comments newId (mkNewComment input newId now) }
         (mkNewComment input newId now)) "comment:created"
         (EventPayload.created (mkNewComment input newId now))) := by
    unfold addComment
    rw [hm]
    simp only [Bool.not_true, Bool.false_eq_true, if_false, if_neg ht,
      validateCoordinates_ok hx0 hx1 hy0 hy1]
    rfl
  have hcomments : (addComment s input newId now (Except.ok ())).2.comments =
      mapSet s.comments newId (mkNewComment input newId now) := by
    rw [hred]
    show (emitEv _ _ _).comments = _
    unfold emitEv
    rw [renderPin_comments]
  have hvals : getComments (addComment s input newId now (Except.ok ())).2 =
      getComments s ++ [mkNewComment input newId now] := by
    unfold getComments
    rw [hcomments, mapSet_of_get_none _ hfc, mapValues_append]
    rfl
  refine ⟨by rw [hred], hid, hids, hstart, hpos, hvals, by rw [hvals]; simp, ?_⟩
  rw [hred]
  show (emitEv _ _ _).events = _
  unfold emitEv
  rw [renderPin_events]

/-- C5 witness: scenario 1 — `addComment({x:50, y:50, text:"hi"})` on a
freshly mounted engine with a resolving adapter returns the built comment and
appends it to `getComments()`. -/
theorem washi_C5_witness :
    (addComment mountedS1 { x := 50, y := 50, text := "hi" } "id-1" 7 (Except.ok ())).1 =
      Except.ok (mkNewComment { x := 50, y := 50, text := "hi" } "id-1" 7)
    ∧ getComments (addComment mountedS1 { x := 50, y := 50, text := "hi" } "id-1" 7
        (Except.ok ())).2 =
      getComments mountedS1 ++ [mkNewComment { x := 50, y := 50, text := "hi" } "id-1" 7] := by
  have h := washi_C5 mountedS1 { x := 50, y := 50, text := "hi" } "id-1" 7 3 rfl
    (by decide) (by decide) (by decide) (by decide) (by decide) (by decide) rfl
    (by intro c hc; simp [getComments, mountedS1, washiInit, mapValues] at hc)
    (by decide) (by decide)
  exact ⟨h.1, h.2.2.2.2.2.1⟩

/-- C6: with `x` or `y` outside `[0, 100]`, `addComment` (on a mounted engine
with non-empty text, the checks that precede validation) rejects with the
validation error, and `updateComment` whose partial fields include `x` or `y`
(the missing coordinate taken from the existing comment) rejects with the
validation error; in both cases the returned state is exactly the input state
(cache unchanged) and the result does not depend on the adapter-outcome
parameter `r` — the adapter is never called. -/
theorem washi_C6 :
    (∀ (s : WashiState) (input : NewComment) (newId : String) (now : Nat)
        (r : Except String Unit),
      s.iframe = true → input.text ≠ "" →
      (input.x < 0 ∨ input.x > 100 ∨ input.y < 0 ∨ input.y > 100) →
      addComment s input newId now r =
        (Except.error (WashiErr.thrown "Coordinates must be between 0-100"), s))
    ∧ (∀ (s : WashiState) (id : String) (u : CommentUpdates) (r : Except String Unit)
        (comment : Comment),
      mapGet s.comments id = some comment →
      (u.x.isSome ∨ u.y.isSome) →
      ((u.x.getD comment.x) < 0 ∨ (u.x.getD comment.x) > 100 ∨
       (u.y.getD comment.y) < 0 ∨ (u.y.getD comment.y) > 100) →
      updateComment s id u r =
        (Except.error (WashiErr.thrown "Coordinates must be between 0-100"), s)) := by
  constructor
  · intro s input newId now r hm ht hbad
    unfold addComment
    rw [hm]
    simp only [Bool.not_true, Bool.false_eq_true, if_false, if_neg ht,
      validateCoordinates_error hbad]
  · intro s id u r comment hget hxy hbad
    unfold updateComment
    rw [hget]
    dsimp only
    rw [if_pos hxy, validateCoordinates_error hbad]

/-- C6 witness: scenario 2 — `addComment({x:150, y:50, text:"hi"})` rejects
with the validation error and leaves the state unchanged; an update moving the
cached comment to `x := 150` does the same. -/
theorem washi_C6_witness :
    addComment mountedS1 { x := 150, y := 50, text := "hi" } "id-1" 7 (Except.ok ()) =
      (Except.error (WashiErr.thrown "Coordinates must be between 0-100"), mountedS1)
    ∧ updateComment cexState "c1" { x := some 150 } (Except.ok ()) =
      (Except.error (WashiErr.thrown "Coordinates must be between 0-100"), cexState) :=
  ⟨washi_C6.1 mountedS1 { x := 150, y := 50, text := "hi" } "id-1" 7 (Except.ok ())
      rfl (by decide) (by decide),
   washi_C6.2 cexState "c1" { x := some 150 } (Except.ok ()) cexComment rfl
      (by decide) (by decide)⟩

/-- C4: when `unmount()` runs while a `mount()` is suspended, the continuation
observes that the live generation counter no longer equals the captured one and
abandons its work.  Interleaving A (unmount during the stabilization wait): the
resumed continuation returns the unmount state unchanged and does not proceed
to the adapter load.  Interleaving B (unmount during the adapter load; the
stabilization continuation had proceeded normally): for every load outcome
`r`, the load continuation inserts no comments and draws no pins — cache and
pin map stay empty after `unmount` returned. -/
theorem washi_C4 (s : WashiState) (opts : Option MountOptions) (att : Bool)
    (s1 : WashiState) (cont : MountCont)
    (h : mountStart s opts att = Except.ok (s1, cont))
    (r : Except String (List Comment)) :
    (unmount s1).mountGeneration ≠ cont.generation
    ∧ mountResume1 (unmount s1) cont = (unmount s1, false)
    ∧ (unmount s1).comments = [] ∧ (unmount s1).pins = []
    ∧ (mountResume1 s1 cont).2 = true
    ∧ (mountResume2 (unmount s1) cont r).comments = []
    ∧ (mountResume2 (unmount s1) cont r).pins = [] := by
  obtain ⟨hs1, hgen⟩ := mountStart_ok h
  have hlive : s1.mountGeneration = cont.generation := by rw [hs1, hgen]
  have hne : (unmount s1).mountGeneration ≠ cont.generation := by
    show s1.mountGeneration + 1 ≠ cont.generation
    rw [hlive]
    omega
  have hr1 : mountResume1 (unmount s1) cont = (unmount s1, false) := by
    unfold mountResume1
    rw [if_pos hne]
  have hr1live : (mountResume1 s1 cont).2 = true := by
    unfold mountResume1
    rw [if_neg (by rw [hlive]; exact fun hc => hc rfl)]
  have hr2c : (mountResume2 (unmount s1) cont r).comments = [] := by
    unfold mountResume2
    cases r with
    | ok cs =>
      dsimp only
      rw [if_pos hne]
      rfl
    | error e => rfl
  have hr2p : (mountResume2 (unmount s1) cont r).pins = [] := by
    unfold mountResume2
    cases r with
    | ok cs =>
      dsimp only
      rw [if_pos hne]
      rfl
    | error e => rfl
  exact ⟨hne, hr1, rfl, rfl, hr1live, hr2c, hr2p⟩

/-- C4 witness: a fresh engine starts mounting, `unmount` runs while the
adapter's load is pending, and the load continuation (with a non-empty load
result) leaves the cache empty. -/
theorem washi_C4_witness :
    (mountResume2 (unmount mountedS1) { generation := 1 }
        (Except.ok [{ id := "a", x := 50, y := 50, text := "hi", createdAt := 1 }])).comments = []
    ∧ (mountResume2 (unmount mountedS1) { generation := 1 }
        (Except.ok [{ id := "a", x := 50, y := 50, text := "hi", createdAt := 1 }])).pins = [] := by
  have h := washi_C4 washiInit none true mountedS1 { generation := 1 } (by rfl)
    (Except.ok [{ id := "a", x := 50, y := 50, text := "hi", createdAt := 1 }])
  exact ⟨h.2.2.2.2.2.1, h.2.2.2.2.2.2⟩

/-- C3 counterexample: the claim says an adapter rejection during
`updateComment` is surfaced "wrapped as a persistence error", but
`updateComment` has no `try`/`catch` around the adapter call — the adapter's
own rejection propagates verbatim.  On a mounted engine caching `cexComment`,
an update whose adapter rejects with `"boom"` surfaces exactly
`WashiErr.adapter "boom"`, which is not an engine-constructed (wrapping)
error, while the cache is left untouched. -/
theorem washi_C3_counterexample :
    (updateComment cexState "c1" { text := some "u" } (Except.error "boom")).1 =
      Except.error (WashiErr.adapter "boom")
    ∧ isEngineThrown (WashiErr.adapter "boom") = false
    ∧ (updateComment cexState "c1" { text := some "u" } (Except.error "boom")).2 = cexState :=
  ⟨rfl, rfl, rfl⟩

/-- C3 (amended): the adapter call is awaited before the cache is mutated in
both `updateComment` and `deleteComment`, so a rejection leaves the state
(hence the cache) exactly as it was; `deleteComment` surfaces the rejection
wrapped in an engine persistence error, while `updateComment` propagates the
adapter's rejection to the caller unwrapped; on success `updateComment` merges
the cached comment with the partial fields and emits `comment:updated` with
`{id, updates}` exactly once. -/
theorem washi_C3_amended :
    (∀ (s : WashiState) (id : String) (u : CommentUpdates) (e : String)
        (comment : Comment),
      mapGet s.comments id = some comment →
      (u.x.isSome = true ∨ u.y.isSome = true →
        validateCoordinates (u.x.getD comment.x) (u.y.getD comment.y) = Except.ok ()) →
      updateComment s id u (Except.error e) = (Except.error (WashiErr.adapter e), s))
    ∧ (∀ (s : WashiState) (id : String) (e : String),
      s.iframe = true → mapHas s.comments id = true →
      deleteComment s id (Except.error e) =
        (Except.error (WashiErr.thrown ("Washi: Failed to delete comment: " ++ e)), s))
    ∧ (∀ (s : WashiState) (id : String) (u : CommentUpdates) (comment : Comment),
      mapGet s.comments id = some comment →
      (u.x.isSome = true ∨ u.y.isSome = true →
        validateCoordinates (u.x.getD comment.x) (u.y.getD comment.y) = Except.ok ()) →
      (updateComment s id u (Except.ok ())).1 = Except.ok ()
      ∧ (updateComment s id u (Except.ok ())).2.comments =
          mapSet s.comments id (applyUpdates comment u)
      ∧ (updateComment s id u (Except.ok ())).2.events =
          s.events ++ [("comment:updated", EventPayload.updated id u)]) := by
  refine ⟨fun s id u e comment hget hv => ?_, fun s id e hm hhas => ?_,
    fun s id u comment hget hv => ?_⟩
  · unfold updateComment
    rw [hget]
    dsimp only
    by_cases hxy : u.x.isSome = true ∨ u.y.isSome = true
    · rw [if_pos hxy, hv hxy]
    · rw [if_neg hxy]
  · unfold deleteComment
    rw [hm, hhas]
    simp only [Bool.not_true, Bool.false_eq_true, if_false]
  · have hred : updateComment s id u (Except.ok ()) =
        (Except.ok (),
         emitEv
           (if u.x.isSome = true ∨ u.y.isSome = true ∨ u.color.isSome = true ∨
               u.resolved.isSome = true then
             renderPin
               { s with comments := mapSet s.comments id (applyUpdates comment u),
                        pins := mapDelete s.pins id }
               (applyUpdates comment u)
           else { s with comments := mapSet s.comments id (applyUpdates comment u) })
           "comment:updated" (EventPayload.updated id u)) := by
      unfold updateComment
      rw [hget]
      dsimp only
      by_cases hxy : u.x.isSome = true ∨ u.y.isSome = true
      · rw [if_pos hxy, hv hxy]
      · rw [if_neg hxy]
    rw [hred]
    refine ⟨rfl, ?_, ?_⟩
    · show (emitEv _ _ _).comments = _
      unfold emitEv
      split
      · rw [renderPin_comments]
      · rfl
    · show (emitEv _ _ _).events = _
      unfold emitEv
      dsimp only
      split
      · rw [renderPin_events]
      · rfl

/-- C3 witness: on the engine caching `cexComment`, a rejecting update
propagates the adapter's error unchanged, and a rejecting delete surfaces the
wrapped engine error; both leave the state untouched. -/
theorem washi_C3_witness :
    updateComment cexState "c1" { text := some "u" } (Except.error "boom") =
      (Except.error (WashiErr.adapter "boom"), cexState)
    ∧ deleteComment cexState "c1" (Except.error "boom") =
      (Except.error (WashiErr.thrown ("Washi: Failed to delete comment: " ++ "boom")),
       cexState) :=
  ⟨washi_C3_amended.1 cexState "c1" { text := some "u" } "boom" cexComment rfl
      (fun hxy => absurd hxy (by decide)),
   washi_C3_amended.2.1 cexState "c1" "boom" rfl rfl⟩

/-! ## Cache-invariant preservation lemmas (for C1) -/

theorem cacheCoordsInRange_of_comments {s t : WashiState} (h : t.comments = s.comments)
    (hs : cacheCoordsInRange s) : cacheCoordsInRange t := by
  unfold cacheCoordsInRange at hs ⊢
  rw [h]
  exact hs

theorem coordsInRange_mapSet {m : List (String × Comment)} {k : String} {c : Comment}
    (hm : ∀ p ∈ m, coordsInRange p.2) (hc : coordsInRange c) :
    ∀ p ∈ mapSet m k c, coordsInRange p.2 := by
  intro p hp
  rcases mem_of_mem_mapSet hp with h | h
  · exact hm p h
  · rw [h]
    exact hc

theorem coordsInRange_mapDelete {m : List (String × Comment)} {k : String}
    (hm : ∀ p ∈ m, coordsInRange p.2) :
    ∀ p ∈ mapDelete m k, coordsInRange p.2 :=
  fun p hp => hm p (mem_of_mem_mapDelete hp)

theorem mountResume1_fst (s : WashiState) (cont : MountCont) :
    (mountResume1 s cont).1 = s := by
  unfold mountResume1
  split <;> rfl

theorem loadFold_inv {cs : List Comment} {s : WashiState}
    (hs : cacheCoordsInRange s) (hcs : ∀ c ∈ cs, coordsInRange c) :
    cacheCoordsInRange
      (cs.foldl (fun acc c => renderPin { acc with comments := mapSet acc.comments c.id c } c)
        s) := by
  induction cs generalizing s with
  | nil => exact hs
  | cons c rest ih =>
    rw [List.foldl_cons]
    apply ih
    · intro p hp
      rw [renderPin_comments] at hp
      exact coordsInRange_mapSet hs (hcs c (List.mem_cons_self c rest)) p hp
    · exact fun d hd => hcs d (List.mem_cons_of_mem _ hd)

theorem addComment_comments (s : WashiState) (input : NewComment) (newId : String)
    (now : Nat) (r : Except String Unit) :
    (addComment s input newId now r).2.comments = s.comments
    ∨ ∃ u, validateCoordinates input.x input.y = Except.ok u
      ∧ ((addComment s input newId now r).2.comments =
            mapSet s.comments newId (mkNewComment input newId now)
        ∨ (addComment s input newId now r).2.comments =
            mapDelete (mapSet s.comments newId (mkNewComment input newId now)) newId) := by
  unfold addComment
  split
  · left
    rfl
  · split
    · left
      rfl
    · split
      · left
        rfl
      · next u heq =>
        dsimp only
        split
        · right
          refine ⟨u, heq, Or.inl ?_⟩
          show (emitEv _ _ _).comments = _
          unfold emitEv
          dsimp only
          rw [renderPin_comments]
          rfl
        · right
          refine ⟨u, heq, Or.inr ?_⟩
          dsimp only
          rw [renderPin_comments]
          rfl

theorem addComment_inv (s : WashiState) (input : NewComment) (newId : String) (now : Nat)
    (r : Except String Unit) (hs : cacheCoordsInRange s) :
    cacheCoordsInRange (addComment s input newId now r).2 := by
  rcases addComment_comments s input newId now r with h | ⟨u, heq, h | h⟩
  · exact cacheCoordsInRange_of_comments h hs
  all_goals {
    have hranges := coords_of_validate_ok heq
    have hcmt : coordsInRange (mkNewComment input newId now) :=
      ⟨hranges.1, hranges.2.1, hranges.2.2.1, hranges.2.2.2⟩
    intro p hp
    rw [h] at hp
    first
    | exact coordsInRange_mapSet hs hcmt p hp
    | exact coordsInRange_mapSet hs hcmt p (mem_of_mem_mapDelete hp)
  }

theorem updateComment_comments (s : WashiState) (id : String) (u : CommentUpdates)
    (r : Except String Unit) :
    (updateComment s id u r).2.comments = s.comments
    ∨ ∃ (comment : Comment) (u0 : Unit),
        mapGet s.comments id = some comment
        ∧ (if u.x.isSome = true ∨ u.y.isSome = true then
            validateCoordinates (u.x.getD comment.x) (u.y.getD comment.y)
          else Except.ok ()) = Except.ok u0
        ∧ (updateComment s id u r).2.comments =
            mapSet s.comments id (applyUpdates comment u) := by
  unfold updateComment
  cases hget : mapGet s.comments id with
  | none => left; rfl
  | some comment =>
    dsimp only
    split
    · left
      rfl
    · next u0 heq =>
      split
      · left
        rfl
      · right
        refine ⟨comment, u0, rfl, heq, ?_⟩
        show (emitEv _ _ _).comments = _
        unfold emitEv
        dsimp only
        split
        · rw [renderPin_comments]
        · rfl

theorem updateComment_inv (s : WashiState) (id : String) (u : CommentUpdates)
    (r : Except String Unit) (hs : cacheCoordsInRange s) :
    cacheCoordsInRange (updateComment s id u r).2 := by
  rcases updateComment_comments s id u r with h | ⟨comment, u0, hget, heq, h⟩
  · exact cacheCoordsInRange_of_comments h hs
  · have hcomment : coordsInRange comment := hs _ (mem_of_mapGet_eq_some hget)
    have hupd : coordsInRange (applyUpdates comment u) := by
      by_cases hxy : u.x.isSome = true ∨ u.y.isSome = true
      · rw [if_pos hxy] at heq
        have hranges := coords_of_validate_ok heq
        exact ⟨hranges.1, hranges.2.1, hranges.2.2.1, hranges.2.2.2⟩
      · push_neg at hxy
        have hxn : u.x = none := by
          cases hu : u.x
          · rfl
          · rw [hu] at hxy
            simp at hxy
        have hyn : u.y = none := by
          cases hu : u.y
          · rfl
          · rw [hu] at hxy
            simp at hxy
        have hux : (applyUpdates comment u).x = comment.x := by
          unfold applyUpdates
          rw [hxn]
          rfl
        have huy : (applyUpdates comment u).y = comment.y := by
          unfold applyUpdates
          rw [hyn]
          rfl
        unfold coordsInRange
        rw [hux, huy]
        exact hcomment
    intro p hp
    rw [h] at hp
    exact coordsInRange_mapSet hs hupd p hp

theorem deleteComment_comments (s : WashiState) (id : String) (r : Except String Unit) :
    (deleteComment s id r).2.comments = s.comments
    ∨ (deleteComment s id r).2.comments = mapDelete s.comments id := by
  unfold deleteComment
  split
  · left
    rfl
  · split
    · left
      rfl
    · split
      · left
        rfl
      · right
        show (emitEv _ _ _).comments = _
        unfold emitEv
        dsimp only
        rw [refreshPinPositions_comments]
        show (if _ then _ else _ : WashiState).comments = _
        split
        · rw [hidePinDialog_comments]
        · rfl

theorem deleteComment_inv (s : WashiState) (id : String) (r : Except String Unit)
    (hs : cacheCoordsInRange s) :
    cacheCoordsInRange (deleteComment s id r).2 := by
  rcases deleteComment_comments s id r with h | h
  · exact cacheCoordsInRange_of_comments h hs
  · intro p hp
    rw [h] at hp
    exact coordsInRange_mapDelete hs p hp

theorem setMode_comments (s : WashiState) (m : String) :
    (setMode s m).2.comments = s.comments := by
  unfold setMode
  split
  · rfl
  · split
    · rfl
    · show (if _ then _ else _ : WashiState).comments = _
      split <;> rfl

/-- C1 (amended): for every reachable state of the engine — reachable through
any sequence of the public operations and of (possibly interleaved) mount
steps — every cached comment has `x` and `y` in `[0, 100]`, PROVIDED every
comment returned by the adapter's `load` is itself in range.  The engine
validates in `addComment` and `updateComment` but inserts `load` results
unvalidated, so the invariant does not extend to arbitrary adapter output
(see the counterexample). -/
theorem washi_C1_amended {s : WashiState} (h : ReachableGood s) : cacheCoordsInRange s := by
  induction h with
  | init =>
    intro p hp
    cases hp
  | startMount _ hok ih =>
    exact cacheCoordsInRange_of_comments (by rw [(mountStart_ok hok).1]) ih
  | resume1 cont _ ih =>
    exact cacheCoordsInRange_of_comments (by rw [mountResume1_fst]) ih
  | resume2 cont _ hloaded ih =>
    unfold mountResume2
    dsimp only
    split
    · exact ih
    · exact loadFold_inv ih hloaded
  | resume2Err cont e _ ih =>
    exact cacheCoordsInRange_of_comments rfl ih
  | unmountStep _ ih =>
    intro p hp
    cases hp
  | add input newId now r _ ih => exact addComment_inv _ input newId now r ih
  | update id u r _ ih => exact updateComment_inv _ id u r ih
  | delete id r _ ih => exact deleteComment_inv _ id r ih
  | mode m _ ih => exact cacheCoordsInRange_of_comments (setMode_comments _ m) ih
  | subscribe event hdl _ ih => exact cacheCoordsInRange_of_comments rfl ih
  | unsubscribe event hdl _ ih => exact cacheCoordsInRange_of_comments rfl ih
  | activePin o _ ih => exact cacheCoordsInRange_of_comments (setActivePin_comments _ o) ih
  | showDialog id _ ih => exact cacheCoordsInRange_of_comments (showPinDialog_comments _ id) ih
  | hideDialog _ ih => exact cacheCoordsInRange_of_comments (hidePinDialog_comments _) ih
  | refresh _ ih => exact cacheCoordsInRange_of_comments (refreshPinPositions_comments _) ih

/-- C1 witness: the freshly mounted engine is reachable and satisfies the
cache coordinate invariant. -/
theorem washi_C1_witness : cacheCoordsInRange mountedS1 :=
  washi_C1_amended
    (ReachableGood.startMount ReachableGood.init
      (show mountStart washiInit none true =
        Except.ok (mountedS1, { generation := 1 }) from rfl))

/-- C1 counterexample: the claim as stated also covers comments "loaded from
the adapter during mount", but `mount` inserts the adapter's `load` result
into the cache without any coordinate validation.  Mounting a fresh engine
whose adapter returns `badComment` (with `x = 150`) succeeds and yields a
reachable state whose cache contains that comment, violating the invariant. -/
theorem washi_C1_counterexample :
    (mount washiInit none true (Except.ok [badComment])).toOption = some loadedBadState
    ∧ mapGet loadedBadState.comments "bad" = some badComment
    ∧ ¬ cacheCoordsInRange loadedBadState := by
  refine ⟨rfl, rfl, ?_⟩
  decide
